import Mathlib

/-!
Verification development for the `imap_mailbox` repository (file `imapbox.py`).

Strings are modelled as `List Char` (Python `str` and `bytes` values that
are treated as character/byte sequences); bytes are modelled as `List Nat`
where the byte values matter (UTF-8 decoding).  Fallible Python code is
modelled with `Except PyErr`.  Each definition mirrors one function or
method of `imapbox.py` (or, where noted, the exact CPython library routine
it calls, such as `str.replace` and `datetime.date` ordinal arithmetic).
-/

namespace ImapBox

/-- Errors raised by the modelled Python code. -/
inductive PyErr where
  /-- a plain `Exception(msg)` -/
  | exception (msg : List Char)
  /-- `NotImplementedError(msg)` -/
  | notImplemented (msg : List Char)
  /-- `IndexError` from indexing an empty list -/
  | indexError
  /-- `AttributeError` from calling `.groups()` on a failed regex match -/
  | attributeError
  /-- `TypeError` from unpacking a non-tuple -/
  | typeError
  /-- `UnicodeDecodeError` from a strict decode of invalid bytes -/
  | unicodeDecodeError
  /-- `LookupError` from an unknown codec name -/
  | lookupError
  deriving DecidableEq, Repr

/-! ## Python `str.replace`

`pyReplace s pat rep` models CPython `s.replace(pat, rep)`: scan left to
right, replace each non-overlapping occurrence of `pat`, and continue
scanning after the inserted text.  An empty pattern inserts `rep` at every
character boundary, as CPython does.  The recursion is driven by explicit
fuel (one unit per character consumed) so that every definition is
structural and evaluates by kernel reduction. -/

/-- Fuel-indexed worker for `pyReplace`.  The fuel is always at least
`s.length + 1` at the call site, which is enough because every recursive
step consumes at least one character of `s`. -/
def replaceFuel : Nat → List Char → List Char → List Char → List Char
  | 0, s, _, _ => s
  | _ + 1, [], pat, rep => if pat.isEmpty then rep else []
  | f + 1, c :: cs, pat, rep =>
    if pat.isEmpty then rep ++ c :: replaceFuel f cs pat rep
    else if pat.isPrefixOf (c :: cs) then
      rep ++ replaceFuel f ((c :: cs).drop pat.length) pat rep
    else c :: replaceFuel f cs pat rep

/-- Model of CPython `s.replace(pat, rep)`. -/
def pyReplace (s pat rep : List Char) : List Char :=
  replaceFuel (s.length + 1) s pat rep

/-- Boolean substring test: does `pat` occur contiguously in `s`?
(Used to reason about which `str.replace` calls are no-ops.) -/
def containsSub : List Char → List Char → Bool
  | [], pat => pat.isPrefixOf []
  | c :: cs, pat => pat.isPrefixOf (c :: cs) || containsSub cs pat

/-! ## CPython `datetime.date` ordinal arithmetic

`imapbox.py` computes all dates with `datetime.date` and `timedelta`.
The definitions below port CPython `datetime._ymd2ord`, `_ord2ymd` and
`date.weekday` verbatim (proleptic Gregorian calendar, ordinal 1 =
0001-01-01, a Monday).  Subtracting a `timedelta(days = k)` from a date is
ordinal subtraction; CPython raises `OverflowError` when the result falls
outside year range 1..9999, so the model is faithful exactly on inputs
where all intermediate ordinals stay at least 1 (the theorems below
restrict `today` accordingly). -/

/-- A `datetime.date` value: CPython guarantees `1 ≤ month ≤ 12` and a
valid day of month; `PyDate.Valid` below captures that invariant. -/
structure PyDate where
  year : Nat
  month : Nat
  day : Nat
  deriving DecidableEq, Repr

/-- CPython `_DAYS_IN_MONTH[m]` (non-leap years). -/
def daysInMonth : Nat → Nat
  | 1 => 31 | 2 => 28 | 3 => 31 | 4 => 30 | 5 => 31 | 6 => 30
  | 7 => 31 | 8 => 31 | 9 => 30 | 10 => 31 | 11 => 30 | 12 => 31
  | _ => 0

/-- CPython `_DAYS_BEFORE_MONTH[m]` (non-leap years). -/
def daysBeforeMonth : Nat → Nat
  | 1 => 0 | 2 => 31 | 3 => 59 | 4 => 90 | 5 => 120 | 6 => 151
  | 7 => 181 | 8 => 212 | 9 => 243 | 10 => 273 | 11 => 304 | 12 => 334
  | _ => 365

/-- CPython `_is_leap(year)`. -/
def isLeap (y : Nat) : Bool :=
  y % 4 = 0 && (y % 100 ≠ 0 || y % 400 = 0)

/-- CPython `_days_before_year(year)`: days before January 1st of `year`. -/
def daysBeforeYear (y : Nat) : Nat :=
  let n := y - 1
  n * 365 + n / 4 - n / 100 + n / 400

/-- CPython `_ymd2ord` / `date.toordinal()`. -/
def ymd2ord (d : PyDate) : Nat :=
  daysBeforeYear d.year + daysBeforeMonth d.month
    + (if d.month > 2 && isLeap d.year then 1 else 0) + d.day

/-- CPython `_ord2ymd(n)` / `date.fromordinal(n)`, ported line by line. -/
def ord2ymd (n0 : Nat) : PyDate :=
  let n := n0 - 1
  let n400 := n / 146097
  let n := n % 146097
  let year := n400 * 400 + 1
  let n100 := n / 36524
  let n := n % 36524
  let n4 := n / 1461
  let n := n % 1461
  let n1 := n / 365
  let n := n % 365
  let year := year + n100 * 100 + n4 * 4 + n1
  if n1 = 4 || n100 = 4 then
    ⟨year - 1, 12, 31⟩
  else
    let leap := n1 = 3 && (n4 ≠ 24 || n100 = 3)
    let month := (n + 50) >>> 5
    let preceding := daysBeforeMonth month + (if month > 2 && leap then 1 else 0)
    if preceding > n then
      let month := month - 1
      let preceding := preceding - (daysInMonth month + (if month = 2 && leap then 1 else 0))
      ⟨year, month, n - preceding + 1⟩
    else
      ⟨year, month, n - preceding + 1⟩

/-- CPython `date.weekday()`: Monday is 0.  Ordinal 1 (0001-01-01) is a
Monday, so the weekday of ordinal `r ≥ 1` is `(r - 1) % 7 = (r + 6) % 7`. -/
def weekdayOfOrd (r : Nat) : Nat := (r + 6) % 7

/-- Validity invariant maintained by the CPython `date` constructor. -/
def PyDate.Valid (d : PyDate) : Prop :=
  1 ≤ d.year ∧ d.year ≤ 9999 ∧ 1 ≤ d.month ∧ d.month ≤ 12 ∧
    1 ≤ d.day ∧ d.day ≤ daysInMonth d.month + (if d.month = 2 && isLeap d.year then 1 else 0)

instance (d : PyDate) : Decidable d.Valid := by
  unfold PyDate.Valid; infer_instance

/-! ## Date formatting: `"{:%d-%b-%Y}".format(date)`

`%d` is the zero-padded two-digit day, `%b` the abbreviated month name,
`%Y` the zero-padded four-digit year. -/

/-- Decimal digit character for `k < 10`. -/
def digitChar (k : Nat) : Char := Char.ofNat (48 + k)

/-- Fuel-indexed decimal digit expansion (most significant digit first). -/
def natDigitsAux : Nat → Nat → List Char → List Char
  | 0, _, acc => acc
  | f + 1, n, acc =>
    if n < 10 then digitChar n :: acc
    else natDigitsAux f (n / 10) (digitChar (n % 10) :: acc)

/-- Decimal rendering of a natural number, as CPython `str(n)` for `n ≥ 0`. -/
def natDigits (n : Nat) : List Char := natDigitsAux (n + 1) n []

/-- Zero-pad to width 2 (`%d`). -/
def pad2 (n : Nat) : List Char :=
  let ds := natDigits n
  List.replicate (2 - ds.length) '0' ++ ds

/-- Zero-pad to width 4 (`%Y`). -/
def pad4 (n : Nat) : List Char :=
  let ds := natDigits n
  List.replicate (4 - ds.length) '0' ++ ds

/-- Abbreviated month names used by `%b` in the C locale. -/
def monthNames : List (List Char) :=
  ["Jan".data, "Feb".data, "Mar".data, "Apr".data, "May".data, "Jun".data,
   "Jul".data, "Aug".data, "Sep".data, "Oct".data, "Nov".data, "Dec".data]

/-- Month abbreviation (`%b`).  The fallback is unreachable for valid
dates, where `1 ≤ month ≤ 12`. -/
def monthAbbr (m : Nat) : List Char := monthNames.getD (m - 1) "Xxx".data

/-- Model of `"{:%d-%b-%Y}".format(d)` (RFC 3501 date rendering). -/
def fmtDate (d : PyDate) : List Char :=
  pad2 d.day ++ "-".data ++ monthAbbr d.month ++ "-".data ++ pad4 d.year

/-- Model of `imap_time_range(start, end)` from `imapbox.py`. -/
def imap_time_range (s e : PyDate) : List Char :=
  "(SINCE ".data ++ fmtDate s ++ " BEFORE ".data ++ fmtDate e ++ ")".data

/-! ## `IMAPMailbox.__expand_search_macros`

A line-by-line port of the method.  `datetime.date.today()` is the one
ambient input; it is passed explicitly as `today`.  `date - timedelta(days=k)`
is modelled as ordinal subtraction followed by `fromordinal` (exactly
CPython semantics while the result stays in range; see the note above). -/

def expandSearchMacros (today : PyDate) (query : List Char) : List Char :=
  let rd := ymd2ord today
  let yesterday := ord2ymd (rd - 1)
  let weekStartOrd := rd - weekdayOfOrd rd
  let week_start := ord2ymd weekStartOrd
  let last_week_start := ord2ymd (weekStartOrd - 7)
  let month_start : PyDate := ⟨today.year, today.month, 1⟩
  let year_start : PyDate := ⟨today.year, 1, 1⟩
  let last_month_start : PyDate :=
    if today.month = 1 then ⟨today.year - 1, 12, 1⟩ else ⟨today.year, today.month - 1, 1⟩
  let last_year_start : PyDate := ⟨today.year - 1, 1, 1⟩
  let q := query
  let q := pyReplace q "FIND".data "TEXT".data
  let q := pyReplace q "TODAY".data ("ON ".data ++ fmtDate today)
  let q := pyReplace q "YESTERDAY".data ("ON ".data ++ fmtDate yesterday)
  let q := pyReplace q "THISWEEK".data ("SINCE ".data ++ fmtDate week_start)
  let q := pyReplace q "THISMONTH".data ("SINCE ".data ++ fmtDate month_start)
  let q := pyReplace q "THISYEAR".data ("SINCE ".data ++ fmtDate year_start)
  let q := pyReplace q "LASTWEEK".data (imap_time_range last_week_start week_start)
  let q := pyReplace q "LASTMONTH".data (imap_time_range last_month_start month_start)
  let q := pyReplace q "LASTYEAR".data (imap_time_range last_year_start year_start)
  let q := pyReplace q "PAST3DAYS".data ("SINCE ".data ++ fmtDate (ord2ymd (rd - 3)))
  let q := pyReplace q "PAST7DAYS".data ("SINCE ".data ++ fmtDate (ord2ymd (rd - 7)))
  let q := pyReplace q "PAST14DAYS".data ("SINCE ".data ++ fmtDate (ord2ymd (rd - 14)))
  let q := pyReplace q "PAST30DAYS".data ("SINCE ".data ++ fmtDate (ord2ymd (rd - 30)))
  let q := pyReplace q "PAST60DAYS".data ("SINCE ".data ++ fmtDate (ord2ymd (rd - 60)))
  let q := pyReplace q "PAST90DAYS".data ("SINCE ".data ++ fmtDate (ord2ymd (rd - 90)))
  let q := pyReplace q "PASTHALFYEAR".data "PAST180DAYS".data
  let q := pyReplace q "PAST180DAYS".data ("SINCE ".data ++ fmtDate (ord2ymd (rd - 180)))
  let q := pyReplace q "PASTYEAR".data "PAST365DAYS".data
  let q := pyReplace q "PAST365DAYS".data ("SINCE ".data ++ fmtDate (ord2ymd (rd - 365)))
  let q := pyReplace q "PAST2YEARS".data "PAST730DAYS".data
  let q := pyReplace q "PAST730DAYS".data ("SINCE ".data ++ fmtDate (ord2ymd (rd - 730)))
  q

/-- The 21 literal patterns that `__expand_search_macros` replaces, in
source order. -/
def tokenPatterns : List (List Char) :=
  ["FIND".data, "TODAY".data, "YESTERDAY".data, "THISWEEK".data, "THISMONTH".data,
   "THISYEAR".data, "LASTWEEK".data, "LASTMONTH".data, "LASTYEAR".data,
   "PAST3DAYS".data, "PAST7DAYS".data, "PAST14DAYS".data, "PAST30DAYS".data,
   "PAST60DAYS".data, "PAST90DAYS".data, "PASTHALFYEAR".data, "PAST180DAYS".data,
   "PASTYEAR".data, "PAST365DAYS".data, "PAST2YEARS".data, "PAST730DAYS".data]

/-- Decidable test: `s` contains none of the replacement patterns. -/
def noTokens (s : List Char) : Bool :=
  tokenPatterns.all (fun t => !containsSub s t)

/-- Ordinal of the Monday of the week containing `d` (the `week_start`
computed by `__expand_search_macros`: `today - timedelta(days=today.weekday())`). -/
def weekStartOrdOf (d : PyDate) : Nat := ymd2ord d - weekdayOfOrd (ymd2ord d)

/-! ## `handle_response` -/

/-- Model of `handle_response(response)`: a non-`OK` status raises
`Exception(data[0])` (an `IndexError` when `data` is empty, since the code
indexes `data[0]`). -/
def handle_response (response : List Char × List (List Char)) :
    Except PyErr (List (List Char)) :=
  if response.1 = "OK".data then .ok response.2
  else
    match response.2 with
    | [] => .error .indexError
    | d :: _ => .error (.exception d)

/-! ## `IMAPMailbox.fetch`

`MESSAGE_HEAD_RE = re.compile(r"(\d+) \(([^\s]+) {(\d+)}$")` used with
`re.match`.  The pattern is deterministic: each greedy class (`\d+`,
`[^\s]+`) excludes the literal character that follows it, so the regex
matches exactly when taking each class maximally succeeds; `$` accepts
end of string or a single trailing newline.  `\d` and `\s` are modelled
over their ASCII members (the only ones exercised here). -/

/-- ASCII decimal digit test (`\d` on the inputs considered). -/
def isDigitCh (c : Char) : Bool := '0' ≤ c && c ≤ '9'

/-- ASCII whitespace test (`\s` on the inputs considered). -/
def isSpaceCh (c : Char) : Bool :=
  c = ' ' || c = '\t' || c = '\n' || c = '\x0d' || c = '\x0c' || c = '\x0b'

/-- Model of `MESSAGE_HEAD_RE.match(head)` returning the three captured
groups `(uid, data-item, byte-count)` on success. -/
def headMatch (s : List Char) : Option (List Char × List Char × List Char) :=
  let (ds, r1) := s.span isDigitCh
  if ds.isEmpty then none else
  match r1 with
  | ' ' :: '(' :: r2 =>
    let (ws, r3) := r2.span (fun c => !isSpaceCh c)
    if ws.isEmpty then none else
    match r3 with
    | ' ' :: '{' :: r4 =>
      let (ds2, r5) := r4.span isDigitCh
      if ds2.isEmpty then none else
      match r5 with
      | '}' :: r6 => if r6 = [] || r6 = ['\n'] then some (ds, ws, ds2) else none
      | _ => none
    | _ => none
  | _ => none

/-- One element of the raw data list returned by `imaplib`'s `fetch`:
either a `(head, body)` tuple or a bare bytes item (the closing-paren
lines that the `[::2]` slice skips). -/
inductive FetchItem where
  | pair (head body : List Char)
  | raw (b : List Char)
  deriving DecidableEq, Repr

/-- The `[::2]` slice: every second element starting from index 0. -/
def everyOther : List α → List α
  | [] => []
  | [a] => [a]
  | a :: _ :: rest => a :: everyOther rest

/-- Loop body of `IMAPMailbox.fetch` over the sliced message list:
unpack each item as `(head, body)` (a `TypeError` otherwise), match the
head line (`.groups()` on a failed match raises `AttributeError`), raise
`Exception("Size mismatch")` when the byte-count group differs from
`str(len(body))`, and otherwise yield `(uid, body)`. -/
def fetchPairs : List FetchItem → Except PyErr (List (List Char × List Char))
  | [] => .ok []
  | .raw _ :: _ => .error .typeError
  | .pair head body :: rest =>
    match headMatch head with
    | none => .error .attributeError
    | some (uid, _why, size) =>
      if size ≠ natDigits body.length then .error (.exception "Size mismatch".data)
      else
        match fetchPairs rest with
        | .error e => .error e
        | .ok tl => .ok ((uid, body) :: tl)

/-- Model of `IMAPMailbox.fetch` applied to the (already
`handle_response`-checked) data list: slice with `[::2]`, then parse each
`(head, body)` pair; the generator is modelled fully forced. -/
def fetchMessages (data : List FetchItem) : Except PyErr (List (List Char × List Char)) :=
  fetchPairs (everyOther data)

/-- Decimal value denoted by a digit string (used to state claims about
the declared byte-count as a number). -/
def strToNat (s : List Char) : Nat :=
  s.foldl (fun a c => a * 10 + (c.toNat - 48)) 0

/-! ## UTF-8 decoding (CPython `bytes.decode`)

`IMAPMessage.__getitem__` decodes header chunks with `bytes.decode`.
The decoder below is CPython's UTF-8 acceptor (rejecting overlong forms,
surrogates and code points above U+10FFFF).  In `"replace"` mode CPython
substitutes one U+FFFD per maximal invalid subsequence: an invalid lead
byte consumes one byte, while a valid lead whose continuation fails
consumes the lead and the valid continuations before the failing byte. -/

/-- Result of decoding one UTF-8 sequence from the front of a byte list. -/
inductive U8Step where
  | done
  | ok (c : Nat) (rest : List Nat)
  | err (rest : List Nat)
  deriving Repr

/-- Decode one UTF-8 sequence; on error, `rest` is the input minus the
maximal subsequence consumed (per CPython error handling). -/
def utf8Next : List Nat → U8Step
  | [] => .done
  | b :: bs =>
    if b < 0x80 then .ok b bs
    else if b < 0xC2 then .err bs
    else if b < 0xE0 then
      match bs with
      | [] => .err []
      | b1 :: bs1 =>
        if 0x80 ≤ b1 && b1 ≤ 0xBF then .ok ((b - 0xC0) * 64 + (b1 - 0x80)) bs1
        else .err bs
    else if b < 0xF0 then
      let lo := if b = 0xE0 then 0xA0 else 0x80
      let hi := if b = 0xED then 0x9F else 0xBF
      match bs with
      | [] => .err []
      | b1 :: bs1 =>
        if lo ≤ b1 && b1 ≤ hi then
          match bs1 with
          | [] => .err []
          | b2 :: bs2 =>
            if 0x80 ≤ b2 && b2 ≤ 0xBF then
              .ok ((b - 0xE0) * 4096 + (b1 - 0x80) * 64 + (b2 - 0x80)) bs2
            else .err bs1
        else .err bs
    else if b < 0xF5 then
      let lo := if b = 0xF0 then 0x90 else 0x80
      let hi := if b = 0xF4 then 0x8F else 0xBF
      match bs with
      | [] => .err []
      | b1 :: bs1 =>
        if lo ≤ b1 && b1 ≤ hi then
          match bs1 with
          | [] => .err []
          | b2 :: bs2 =>
            if 0x80 ≤ b2 && b2 ≤ 0xBF then
              match bs2 with
              | [] => .err []
              | b3 :: bs3 =>
                if 0x80 ≤ b3 && b3 ≤ 0xBF then
                  .ok ((b - 0xF0) * 262144 + (b1 - 0x80) * 4096 + (b2 - 0x80) * 64 + (b3 - 0x80)) bs3
                else .err bs2
            else .err bs1
        else .err bs
    else .err bs

/-- Fuel-indexed strict UTF-8 decode (`bytes.decode()` / errors="strict"):
`none` models `UnicodeDecodeError`. -/
def utf8StrictAux : Nat → List Nat → Option (List Char)
  | 0, _ => none
  | f + 1, bs =>
    match utf8Next bs with
    | .done => some []
    | .ok c rest => (utf8StrictAux f rest).map (Char.ofNat c :: ·)
    | .err _ => none

/-- CPython `bs.decode("utf-8")` (strict). -/
def utf8Strict (bs : List Nat) : Option (List Char) :=
  utf8StrictAux (bs.length + 1) bs

/-- Fuel-indexed permissive UTF-8 decode (errors="replace"). -/
def utf8ReplaceAux : Nat → List Nat → List Char
  | 0, _ => []
  | f + 1, bs =>
    match utf8Next bs with
    | .done => []
    | .ok c rest => Char.ofNat c :: utf8ReplaceAux f rest
    | .err rest => '�' :: utf8ReplaceAux f rest

/-- CPython `bs.decode("utf-8", "replace")`. -/
def utf8Replace (bs : List Nat) : List Char :=
  utf8ReplaceAux (bs.length + 1) bs

/-- CPython `bs.decode("latin-1", ...)`: total, one char per byte. -/
def latin1Decode (bs : List Nat) : List Char := bs.map Char.ofNat

/-! ## `IMAPMessage.__getitem__`

The input boundary is the output of `email.header.decode_header`: a list
of chunks, each either an (already decoded) `str` or a `bytes` payload
with an optional charset tag.  The codec registry is modelled for the
charsets exercised by the theorems (`utf-8` and `latin-1`/`iso-8859-1`);
`codecOf` returning `none` models a charset name CPython has no codec
for, where `bytes.decode(name, "replace")` raises `LookupError`. -/

/-- One element of the pair list returned by `email.header.decode_header`. -/
inductive HeaderChunk where
  | str (s : List Char)
  | bytes (b : List Nat) (charset : Option (List Char))
  deriving DecidableEq, Repr

/-- Codecs modelled from CPython's registry. -/
inductive Codec where
  | utf8
  | latin1
  deriving DecidableEq, Repr

/-- Codec lookup for the charset names the theorems exercise. -/
def codecOf (name : List Char) : Option Codec :=
  if name = "utf-8".data then some .utf8
  else if name = "latin-1".data || name = "iso-8859-1".data then some .latin1
  else none

/-- CPython `bs.decode(codec, "replace")` for the modelled codecs. -/
def codecReplaceDecode (c : Codec) (bs : List Nat) : List Char :=
  match c with
  | .utf8 => utf8Replace bs
  | .latin1 => latin1Decode bs

/-- Loop body of `IMAPMessage.__getitem__` for one `(data, charset)`
pair, with the four branches in source order: `str` data is kept;
`charset is None` does a strict default decode (`data.decode()`);
charset `unknown-8bit` decodes UTF-8 with replacement; any other charset
decodes with replacement under that codec. -/
def decodeChunk : HeaderChunk → Except PyErr (List Char)
  | .str s => .ok s
  | .bytes b none =>
    match utf8Strict b with
    | some s => .ok s
    | none => .error .unicodeDecodeError
  | .bytes b (some cs) =>
    if cs = "unknown-8bit".data then .ok (utf8Replace b)
    else
      match codecOf cs with
      | some c => .ok (codecReplaceDecode c b)
      | none => .error .lookupError

/-- Sequential decoding of all chunks, stopping at the first raised
error, as the `for` loop does. -/
def decodeChunks : List HeaderChunk → Except PyErr (List (List Char))
  | [] => .ok []
  | c :: cs =>
    match decodeChunk c with
    | .error e => .error e
    | .ok s =>
      match decodeChunks cs with
      | .error e => .error e
      | .ok tl => .ok (s :: tl)

/-- Model of `IMAPMessage.__getitem__` from the decoded pairs on:
decode every chunk, then `" ".join(decoded_chunks)`. -/
def getitemDecode (pairs : List HeaderChunk) : Except PyErr (List Char) :=
  match decodeChunks pairs with
  | .error e => .error e
  | .ok chunks => .ok (List.intercalate " ".data chunks)

/-- Model of the whole `__getitem__`: a missing header (`None` from the
superclass lookup) returns `None` before any decoding. -/
def getitemHeader (orig : Option (List HeaderChunk)) :
    Except PyErr (Option (List Char)) :=
  match orig with
  | none => .ok none
  | some pairs =>
    match getitemDecode pairs with
    | .error e => .error e
    | .ok s => .ok (some s)

/-- The decoded text the `unknown-8bit` branch produces for a chunk:
`str` data unchanged, byte data decoded UTF-8 with replacement. -/
def chunkPermissive : HeaderChunk → List Char
  | .str s => s
  | .bytes b _ => utf8Replace b

/-- Decidable test: every byte chunk in the list is tagged with the
charset `unknown-8bit`. -/
def allUnknown8bit (pairs : List HeaderChunk) : Bool :=
  pairs.all fun ch =>
    match ch with
    | .str _ => true
    | .bytes _ cs => decide (cs = some "unknown-8bit".data)

/-! ## `parse_folder_data` and `list_folders`

`FOLDER_DATA_RE = re.compile(r"\(([^)]+)\) \"([^\"]+)\" \"([^\"]+)\"$")`
used with `re.match`; each greedy class excludes the closing literal that
follows it, so maximal-run parsing is exact, and `$` accepts end of
string or one trailing newline.  A failed match makes `.groups()` raise
`AttributeError`, modelled as `none`. -/

/-- Model of `parse_folder_data(data)`: the three captured groups
`(flags, delimiter, folder_name)`. -/
def parse_folder_data (s : List Char) : Option (List Char × List Char × List Char) :=
  match s with
  | '(' :: r1 =>
    let (flags, r2) := r1.span (fun c => c ≠ ')')
    if flags.isEmpty then none else
    match r2 with
    | ')' :: ' ' :: '"' :: r3 =>
      let (delim, r4) := r3.span (fun c => c ≠ '"')
      if delim.isEmpty then none else
      match r4 with
      | '"' :: ' ' :: '"' :: r5 =>
        let (path, r6) := r5.span (fun c => c ≠ '"')
        if path.isEmpty then none else
        match r6 with
        | '"' :: r7 => if r7 = [] || r7 = ['\n'] then some (flags, delim, path) else none
        | _ => none
      | _ => none
    | _ => none
  | _ => none

/-- Fuel-indexed model of CPython `s.split(sep)` for non-empty `sep`
(the delimiter captured by `[^\"]+` is never empty). -/
def splitFuel : Nat → List Char → List Char → List (List Char)
  | 0, s, _ => [s]
  | f + 1, s, sep =>
    if !sep.isEmpty && sep.isPrefixOf s then
      [] :: splitFuel f (s.drop sep.length) sep
    else
      match s with
      | [] => [[]]
      | c :: cs =>
        match splitFuel f cs sep with
        | seg :: rest => (c :: seg) :: rest
        | [] => [[c]]

/-- CPython `s.split(sep)` (non-empty separator). -/
def pySplit (s sep : List Char) : List (List Char) :=
  splitFuel (s.length + 1) s sep

/-- Loop body of `IMAPMailbox.list_folders` for one folder-list line:
parse it and append `folder.split(delimiter)[-1]` as the display name. -/
def folderEntry (data : List Char) :
    Option (List Char × List Char × List Char × List Char) :=
  match parse_folder_data data with
  | none => none
  | some (flags, delim, folder) => some (flags, delim, folder, (pySplit folder delim).getLastD [])

/-! ## Mailbox facade state, `search`, `select`, `__delitem__`

The facade object carries its constructor fields and the currently
selected folder name (`self.__folder`).  The underlying `imaplib`
session is an external collaborator: each operation that talks to it is
parametrised by a function describing the server's reply. -/

/-- The facade's own state: `host`, `user`, `password`, `self.__folder`,
and whether `connect()` has created the session object `self.__m`. -/
structure MailboxState where
  host : List Char
  user : List Char
  password : List Char
  folder : List Char
  connected : Bool
  deriving DecidableEq, Repr

/-- Property `IMAPMailbox.current_folder`. -/
def current_folder (m : MailboxState) : List Char := m.folder

/-- Calls the facade can issue on the underlying `imaplib` session. -/
inductive ServerCall where
  | searchCall (criteria : List Char)
  | fetchCall (messageset what : List Char)
  | storeCall (messageset flags value : List Char)
  | expungeCall
  | selectCall (folder : List Char)
  deriving DecidableEq, Repr

/-- Model of `IMAPMailbox.__delitem__`: the body is a single
`raise NotImplementedError("Use discard() instead")`.  It returns the
raised error, the unchanged facade state, and the (empty) list of server
calls made. -/
def delitemModel (m : MailboxState) (_key : List Char) :
    Except PyErr Unit × MailboxState × List ServerCall :=
  (.error (.notImplemented "Use discard() instead".data), m, [])

/-- Model of `IMAPMailbox.discard` for contrast: one `store` call adding
the `\Deleted` flag, no error, state unchanged. -/
def discardModel (m : MailboxState) (messageset : List Char) :
    Except PyErr Unit × MailboxState × List ServerCall :=
  (.ok (), m, [.storeCall messageset "+FLAGS".data "\\Deleted".data])

/-- Model of `IMAPMailbox.__expand_search_macros` as the method it is:
it reads nothing from `self` and mutates nothing, so it returns the
unchanged state beside the rewritten query. -/
def expandMethod (self : MailboxState) (today : PyDate) (query : List Char) :
    MailboxState × List Char :=
  (self, expandSearchMacros today query)

/-- Model of `IMAPMailbox.search`: expand the query, send the expansion
as the SEARCH criteria (`server` maps the criteria string to the
`(status, data)` reply), `handle_response` it, then
`data[0].replace(b" ", b",")`.  The debug `print` has no effect on the
result. -/
def searchModel (today : PyDate)
    (server : List Char → List Char × List (List Char)) (query : List Char) :
    Except PyErr (List Char) :=
  let expanded := expandSearchMacros today query
  match handle_response (server expanded) with
  | .error e => .error e
  | .ok [] => .error .indexError
  | .ok (d :: _) => .ok (pyReplace d " ".data ",".data)

/-- Model of `IMAPMailbox.select`: `self.__folder` is assigned before
`self.__m.select(folder)` is issued, and `self` is returned.  The server
session is modelled by its currently selected folder `sf` and a reply
function: `.ok sf2` is a normal return that leaves the session selected
on `sf2`; `.error e` is a raised exception, after which the session's
selected folder is still `sf` (the call did not take effect).  The
result is `(returned value, facade state, server-side selected folder)`. -/
def selectModel (srv : List Char → List Char → Except PyErr (List Char))
    (sf : List Char) (m : MailboxState) (folder : List Char) :
    Except PyErr MailboxState × MailboxState × List Char :=
  let m2 := { m with folder := folder }
  match srv sf folder with
  | .error e => (.error e, m2, sf)
  | .ok sf2 => (.ok m2, m2, sf2)

/-! ## Helper lemmas about `pyReplace` and `containsSub` -/

theorem isPrefixOf_self : ∀ l : List Char, l.isPrefixOf l = true
  | [] => rfl
  | c :: cs => by simp [List.isPrefixOf, isPrefixOf_self cs]

theorem mem_of_isPrefixOf : ∀ (pat s : List Char) (x : Char),
    pat.isPrefixOf s = true → x ∈ pat → x ∈ s
  | [], _, x, _, hx => absurd hx (List.not_mem_nil x)
  | _ :: _, [], x, h, _ => by simp [List.isPrefixOf] at h
  | a :: as, b :: bs, x, h, hx => by
    simp only [List.isPrefixOf, Bool.and_eq_true, beq_iff_eq] at h
    rcases List.mem_cons.mp hx with h1 | h1
    · rw [h1, h.1]; exact List.mem_cons_self b bs
    · exact List.mem_cons_of_mem b (mem_of_isPrefixOf as bs x h.2 h1)

/-- A pattern containing a character absent from `s` cannot occur in `s`. -/
theorem not_contains_of_missing (p : Char) :
    ∀ (s pat : List Char), p ∈ pat → p ∉ s → containsSub s pat = false
  | [], pat, hp, _ => by
    cases pat with
    | nil => exact absurd hp (List.not_mem_nil p)
    | cons a as => rfl
  | c :: cs, pat, hp, hs => by
    have h1 : pat.isPrefixOf (c :: cs) = false := by
      cases h : pat.isPrefixOf (c :: cs) with
      | false => rfl
      | true => exact absurd (mem_of_isPrefixOf pat (c :: cs) p h hp) hs
    have h2 : containsSub cs pat = false :=
      not_contains_of_missing p cs pat hp (fun hm => hs (List.mem_cons_of_mem c hm))
    simp [containsSub, h1, h2]

theorem replaceFuel_id : ∀ (f : Nat) (s pat rep : List Char),
    containsSub s pat = false → s.length < f → replaceFuel f s pat rep = s
  | 0, s, _, _, _, hf => absurd hf (by omega)
  | f + 1, [], pat, rep, hc, _ => by
    have hne : pat.isEmpty = false := by
      cases pat with
      | nil => simp [containsSub, List.isPrefixOf] at hc
      | cons a as => rfl
    simp [replaceFuel, hne]
  | f + 1, c :: cs, pat, rep, hc, hf => by
    simp only [containsSub, Bool.or_eq_false_iff] at hc
    have hne : pat.isEmpty = false := by
      cases pat with
      | nil => simp [List.isPrefixOf] at hc
      | cons a as => rfl
    have ih := replaceFuel_id f cs pat rep hc.2 (by simpa using Nat.lt_of_succ_lt_succ hf)
    simp [replaceFuel, hne, hc.1, ih]

/-- A `str.replace` whose pattern does not occur is the identity. -/
theorem pyReplace_of_not_contains {s pat : List Char} (rep : List Char)
    (hc : containsSub s pat = false) : pyReplace s pat rep = s :=
  replaceFuel_id (s.length + 1) s pat rep hc (Nat.lt_succ_self _)

/-- Replacing the whole (non-empty) string by `rep`. -/
theorem pyReplace_self {pat : List Char} (rep : List Char) (h : pat ≠ []) :
    pyReplace pat pat rep = rep := by
  cases pat with
  | nil => exact absurd rfl h
  | cons c cs =>
    have hne : (c :: cs).isEmpty = false := rfl
    have hlen : (c :: cs).length = cs.length + 1 := rfl
    simp only [pyReplace, hlen, replaceFuel, hne, Bool.false_eq_true, if_false,
      isPrefixOf_self, if_true, List.drop_length]
    cases cs with
    | nil => simp [replaceFuel]
    | cons d ds => simp [replaceFuel]

/-! ## Character-set lemmas about formatted dates -/

theorem isDigitCh_digitChar {n : Nat} (h : n < 10) : isDigitCh (digitChar n) = true := by
  interval_cases n <;> decide

theorem natDigitsAux_digit : ∀ (f n : Nat) (acc : List Char),
    (∀ c ∈ acc, isDigitCh c = true) → ∀ c ∈ natDigitsAux f n acc, isDigitCh c = true
  | 0, _, _, hacc, c, hc => hacc c hc
  | f + 1, n, acc, hacc, c, hc => by
    by_cases hn : n < 10
    · simp only [natDigitsAux, hn, if_true] at hc
      rcases List.mem_cons.mp hc with h1 | h1
      · exact h1 ▸ isDigitCh_digitChar hn
      · exact hacc c h1
    · simp only [natDigitsAux, hn, if_false] at hc
      refine natDigitsAux_digit f (n / 10) _ ?_ c hc
      intro x hx
      rcases List.mem_cons.mp hx with h1 | h1
      · exact h1 ▸ isDigitCh_digitChar (Nat.mod_lt n (by omega))
      · exact hacc x h1

theorem natDigits_digit (n : Nat) : ∀ c ∈ natDigits n, isDigitCh c = true :=
  natDigitsAux_digit (n + 1) n [] (by intro c hc; exact absurd hc (List.not_mem_nil c))

theorem pad2_digit (n : Nat) : ∀ c ∈ pad2 n, isDigitCh c = true := by
  intro c hc
  simp only [pad2, List.mem_append] at hc
  rcases hc with h1 | h1
  · rw [List.eq_of_mem_replicate h1]; decide
  · exact natDigits_digit n c h1

theorem pad4_digit (n : Nat) : ∀ c ∈ pad4 n, isDigitCh c = true := by
  intro c hc
  simp only [pad4, List.mem_append] at hc
  rcases hc with h1 | h1
  · rw [List.eq_of_mem_replicate h1]; decide
  · exact natDigits_digit n c h1

theorem monthAbbr_ne_LP (m : Nat) : ∀ c ∈ monthAbbr m, c ≠ 'L' ∧ c ≠ 'P' := by
  have htable : ∀ x ∈ monthNames, ∀ c ∈ x, c ≠ 'L' ∧ c ≠ 'P' := by decide
  intro c hc
  unfold monthAbbr List.getD at hc
  cases h : monthNames.get? (m - 1) with
  | none =>
    rw [h] at hc; simp at hc
    rcases hc with h1 | h1 <;> subst h1 <;> exact ⟨by decide, by decide⟩
  | some x =>
    rw [h] at hc; simp at hc
    exact htable x (List.get?_mem h) c hc

/-- No character of a formatted date is an uppercase L or P (the first
letters of the replacement tokens applied after `LASTWEEK`). -/
theorem fmtDate_ne_LP (d : PyDate) : ∀ c ∈ fmtDate d, c ≠ 'L' ∧ c ≠ 'P' := by
  intro c hc
  simp [fmtDate, List.mem_append] at hc
  rcases hc with h1 | h1 | h1 | h1 | h1
  · have := pad2_digit d.day c h1
    constructor <;> (intro he; rw [he] at this; simp [isDigitCh] at this)
  · subst h1; exact ⟨by decide, by decide⟩
  · exact monthAbbr_ne_LP d.month c h1
  · subst h1; exact ⟨by decide, by decide⟩
  · have := pad4_digit d.year c h1
    constructor <;> (intro he; rw [he] at this; simp [isDigitCh] at this)

theorem timeRange_not_mem_L (d1 d2 : PyDate) : 'L' ∉ imap_time_range d1 d2 := by
  intro h
  simp [imap_time_range, List.mem_append] at h
  rcases h with h | h
  · exact (fmtDate_ne_LP d1 'L' h).1 rfl
  · exact (fmtDate_ne_LP d2 'L' h).1 rfl

theorem timeRange_not_mem_P (d1 d2 : PyDate) : 'P' ∉ imap_time_range d1 d2 := by
  intro h
  simp [imap_time_range, List.mem_append] at h
  rcases h with h | h
  · exact (fmtDate_ne_LP d1 'P' h).2 rfl
  · exact (fmtDate_ne_LP d2 'P' h).2 rfl

/-- The fourteen replacement steps after the `LASTWEEK` step are the
identity on any string free of uppercase L and P. -/
theorem latePatterns_id (s r8 r9 r10 r11 r12 r13 r14 r15 r16 r17 r18 r19 r20 r21 : List Char)
    (hL : 'L' ∉ s) (hP : 'P' ∉ s) :
    pyReplace (pyReplace (pyReplace (pyReplace (pyReplace (pyReplace (pyReplace
      (pyReplace (pyReplace (pyReplace (pyReplace (pyReplace (pyReplace (pyReplace s
      "LASTMONTH".data r8) "LASTYEAR".data r9) "PAST3DAYS".data r10) "PAST7DAYS".data r11)
      "PAST14DAYS".data r12) "PAST30DAYS".data r13) "PAST60DAYS".data r14) "PAST90DAYS".data r15)
      "PASTHALFYEAR".data r16) "PAST180DAYS".data r17) "PASTYEAR".data r18) "PAST365DAYS".data r19)
      "PAST2YEARS".data r20) "PAST730DAYS".data r21 = s := by
  rw [pyReplace_of_not_contains r8 (not_contains_of_missing 'L' s _ (by decide) hL)]
  rw [pyReplace_of_not_contains r9 (not_contains_of_missing 'L' s _ (by decide) hL)]
  rw [pyReplace_of_not_contains r10 (not_contains_of_missing 'P' s _ (by decide) hP)]
  rw [pyReplace_of_not_contains r11 (not_contains_of_missing 'P' s _ (by decide) hP)]
  rw [pyReplace_of_not_contains r12 (not_contains_of_missing 'P' s _ (by decide) hP)]
  rw [pyReplace_of_not_contains r13 (not_contains_of_missing 'P' s _ (by decide) hP)]
  rw [pyReplace_of_not_contains r14 (not_contains_of_missing 'P' s _ (by decide) hP)]
  rw [pyReplace_of_not_contains r15 (not_contains_of_missing 'P' s _ (by decide) hP)]
  rw [pyReplace_of_not_contains r16 (not_contains_of_missing 'P' s _ (by decide) hP)]
  rw [pyReplace_of_not_contains r17 (not_contains_of_missing 'P' s _ (by decide) hP)]
  rw [pyReplace_of_not_contains r18 (not_contains_of_missing 'P' s _ (by decide) hP)]
  rw [pyReplace_of_not_contains r19 (not_contains_of_missing 'P' s _ (by decide) hP)]
  rw [pyReplace_of_not_contains r20 (not_contains_of_missing 'P' s _ (by decide) hP)]
  rw [pyReplace_of_not_contains r21 (not_contains_of_missing 'P' s _ (by decide) hP)]

/-- Evaluation of the expander on the exact query `LASTWEEK`, for an
arbitrary reference date. -/
theorem expand_lastweek_eval (today : PyDate) :
    expandSearchMacros today "LASTWEEK".data =
      imap_time_range (ord2ymd (ymd2ord today - weekdayOfOrd (ymd2ord today) - 7))
        (ord2ymd (ymd2ord today - weekdayOfOrd (ymd2ord today))) := by
  simp only [expandSearchMacros]
  rw [pyReplace_of_not_contains _ (by decide : containsSub "LASTWEEK".data "FIND".data = false)]
  rw [pyReplace_of_not_contains _ (by decide : containsSub "LASTWEEK".data "TODAY".data = false)]
  rw [pyReplace_of_not_contains _ (by decide : containsSub "LASTWEEK".data "YESTERDAY".data = false)]
  rw [pyReplace_of_not_contains _ (by decide : containsSub "LASTWEEK".data "THISWEEK".data = false)]
  rw [pyReplace_of_not_contains _ (by decide : containsSub "LASTWEEK".data "THISMONTH".data = false)]
  rw [pyReplace_of_not_contains _ (by decide : containsSub "LASTWEEK".data "THISYEAR".data = false)]
  rw [pyReplace_self _ (by decide : "LASTWEEK".data ≠ ([] : List Char))]
  exact latePatterns_id _ _ _ _ _ _ _ _ _ _ _ _ _ _ _
    (timeRange_not_mem_L _ _) (timeRange_not_mem_P _ _)

/-- Lower bound on the ordinal of a valid date in year 3 or later. -/
theorem ymd2ord_lower (d : PyDate) (hv : d.Valid) (hy : 3 ≤ d.year) : 700 ≤ ymd2ord d := by
  obtain ⟨h1, h2, h3, h4, h5, h6⟩ := hv
  have hb : daysBeforeMonth d.month + (if d.month > 2 && isLeap d.year then 1 else 0) ≥ 0 :=
    Nat.zero_le _
  simp only [ymd2ord, daysBeforeYear]
  omega

/-- The expander is the identity on a string containing none of its
replacement patterns. -/
theorem expand_noTokens_id (today : PyDate) (s : List Char) (h : noTokens s = true) :
    expandSearchMacros today s = s := by
  simp only [noTokens, tokenPatterns, List.all_cons, List.all_nil, Bool.and_eq_true,
    Bool.not_eq_true'] at h
  obtain ⟨h1, h2, h3, h4, h5, h6, h7, h8, h9, h10, h11, h12, h13, h14, h15, h16, h17,
    h18, h19, h20, h21, -⟩ := h
  simp only [expandSearchMacros]
  rw [pyReplace_of_not_contains _ h1, pyReplace_of_not_contains _ h2,
    pyReplace_of_not_contains _ h3, pyReplace_of_not_contains _ h4,
    pyReplace_of_not_contains _ h5, pyReplace_of_not_contains _ h6,
    pyReplace_of_not_contains _ h7, pyReplace_of_not_contains _ h8,
    pyReplace_of_not_contains _ h9, pyReplace_of_not_contains _ h10,
    pyReplace_of_not_contains _ h11, pyReplace_of_not_contains _ h12,
    pyReplace_of_not_contains _ h13, pyReplace_of_not_contains _ h14,
    pyReplace_of_not_contains _ h15, pyReplace_of_not_contains _ h16,
    pyReplace_of_not_contains _ h17, pyReplace_of_not_contains _ h18,
    pyReplace_of_not_contains _ h19, pyReplace_of_not_contains _ h20,
    pyReplace_of_not_contains _ h21]

/-! ## Lemmas about single-character replacement (for `search`) -/

theorem replaceFuel_single : ∀ (f : Nat) (s : List Char) (a b : Char), s.length < f →
    replaceFuel f s [a] [b] = s.map (fun c => if c = a then b else c)
  | 0, _, _, _, hf => absurd hf (by omega)
  | _ + 1, [], _, _, _ => rfl
  | f + 1, c :: cs, a, b, hf => by
    have ih := replaceFuel_single f cs a b (Nat.lt_of_succ_lt_succ hf)
    by_cases hac : a = c
    · subst hac
      have hp : ([a] : List Char).isPrefixOf (a :: cs) = true := by
        simp [List.isPrefixOf]
      simp [replaceFuel, hp, ih]
    · have hp : ([a] : List Char).isPrefixOf (c :: cs) = false := by
        simp [List.isPrefixOf]
        exact fun h => absurd h hac
      simp only [replaceFuel, List.isEmpty_cons, hp, Bool.false_eq_true, if_false,
        List.map_cons, ih]
      rw [if_neg (Ne.symm hac)]

/-- A single-character `str.replace` is a character map. -/
theorem pyReplace_single (s : List Char) (a b : Char) :
    pyReplace s [a] [b] = s.map (fun c => if c = a then b else c) :=
  replaceFuel_single _ s a b (Nat.lt_succ_self _)

theorem map_keep_of_no_space (u : List Char) (h : ' ' ∉ u) :
    u.map (fun c => if c = ' ' then ',' else c) = u := by
  induction u with
  | nil => rfl
  | cons c cs ih =>
    simp only [List.map_cons]
    have hc : c ≠ ' ' := fun he => h (he ▸ List.mem_cons_self c cs)
    rw [if_neg hc, ih (fun hm => h (List.mem_cons_of_mem c hm))]

/-- Replacing every space by a comma turns a space-joined list of
space-free words into the comma-joined list. -/
theorem intercalate_space_to_comma : ∀ us : List (List Char), (∀ u ∈ us, ' ' ∉ u) →
    (List.intercalate [' '] us).map (fun c => if c = ' ' then ',' else c) =
      List.intercalate [','] us
  | [], _ => rfl
  | [u], h => by
    simp [List.intercalate]
    exact map_keep_of_no_space u (h u (by simp))
  | u :: v :: rest, h => by
    have ih := intercalate_space_to_comma (v :: rest)
      (fun x hx => h x (List.mem_cons_of_mem u hx))
    have hcc : ∀ (sep : List Char), List.intercalate sep (u :: v :: rest) =
        u ++ sep ++ List.intercalate sep (v :: rest) := by
      intro sep
      simp [List.intercalate, List.intersperse_cons_cons]
    rw [hcc, hcc, List.map_append, List.map_append, ih,
      map_keep_of_no_space u (h u (by simp))]
    simp

/-- When every byte chunk is tagged `unknown-8bit`, the decode loop
succeeds on each chunk with the permissive UTF-8 decode. -/
theorem decodeChunks_unknown8bit : ∀ pairs, allUnknown8bit pairs = true →
    decodeChunks pairs = .ok (pairs.map chunkPermissive)
  | [], _ => rfl
  | ch :: rest, h => by
    simp only [allUnknown8bit, List.all_cons, Bool.and_eq_true] at h
    have ih := decodeChunks_unknown8bit rest h.2
    cases ch with
    | str s => simp [decodeChunks, decodeChunk, chunkPermissive, ih]
    | bytes b cs =>
      have hcs : cs = some "unknown-8bit".data := by
        have := h.1; simpa using this
      subst hcs
      simp [decodeChunks, decodeChunk, chunkPermissive, ih]

/-! ## Claim theorems -/

/-- C1 (amended): for every fetch response line whose head matches the
pattern, `fetch` yields the `(uid, body)` pair exactly when the declared
byte-count group equals the decimal rendering `str(len(body))` of the
body length as a string, and raises the fatal `Size mismatch` error
exactly when the two strings differ.  (The source compares the captured
group to `str(len(body))` by string equality, so a numerically equal but
non-canonical count such as `007` also raises; see the counterexample.) -/
theorem fetch_size_check (head body uid why size : List Char)
    (hm : headMatch head = some (uid, why, size)) :
    (size = natDigits body.length →
      fetchMessages [.pair head body] = .ok [(uid, body)]) ∧
    (size ≠ natDigits body.length →
      fetchMessages [.pair head body] = .error (.exception "Size mismatch".data)) := by
  constructor <;> intro hsz <;>
    simp [fetchMessages, everyOther, fetchPairs, hm, hsz]

/-- Witness for C1: a well-formed response line with a correct count is
yielded, and one with a wrong count raises `Size mismatch`. -/
theorem fetch_size_check_witness :
    headMatch "1 (RFC822 {3}".data = some ("1".data, "RFC822".data, "3".data) ∧
    fetchMessages [.pair "1 (RFC822 {3}".data "abc".data] = .ok [("1".data, "abc".data)] ∧
    fetchMessages [.pair "1 (RFC822 {9}".data "abc".data] =
      .error (.exception "Size mismatch".data) := by
  refine ⟨by decide, ?_, ?_⟩
  · exact (fetch_size_check "1 (RFC822 {3}".data "abc".data "1".data "RFC822".data "3".data
      (by decide)).1 (by decide)
  · exact (fetch_size_check "1 (RFC822 {9}".data "abc".data "1".data "RFC822".data "9".data
      (by decide)).2 (by decide)

/-- Counterexample to C1 as stated: the head line declares byte-count
`007`, whose numeric value equals the body length 7, yet `fetch` raises
the protocol-integrity error, because the comparison is between the
digit strings `007` and `7`. -/
theorem fetch_size_mismatch_on_equal_count :
    headMatch "1 (RFC822 {007}".data = some ("1".data, "RFC822".data, "007".data) ∧
    strToNat "007".data = ("abcdefg".data).length ∧
    fetchMessages [.pair "1 (RFC822 {007}".data "abcdefg".data, .raw ")".data] =
      .error (.exception "Size mismatch".data) :=
  ⟨by decide, by decide, rfl⟩

/-- C2 (amended): for every header whose byte chunks all carry the
literal charset tag `unknown-8bit`, reading the header returns a decoded
string without raising, decoding each byte chunk as UTF-8 with
replacement characters substituted for invalid bytes.  (Byte chunks with
no charset at all are instead decoded strictly and can raise; see the
counterexample.) -/
theorem header_unknown8bit_decodes_permissively (pairs : List HeaderChunk)
    (h : allUnknown8bit pairs = true) :
    getitemDecode pairs = .ok (List.intercalate " ".data (pairs.map chunkPermissive)) := by
  unfold getitemDecode
  rw [decodeChunks_unknown8bit pairs h]

/-- Witness for C2: a chunk tagged `unknown-8bit` holding the invalid
UTF-8 byte 0xE9 decodes without raising, with a replacement character in
place of the bad byte. -/
theorem header_unknown8bit_witness :
    allUnknown8bit [.bytes [0x63, 0x61, 0x66, 0xE9] (some "unknown-8bit".data)] = true ∧
    getitemDecode [.bytes [0x63, 0x61, 0x66, 0xE9] (some "unknown-8bit".data)] =
      .ok ['c', 'a', 'f', '�'] := by
  refine ⟨by decide, ?_⟩
  exact (header_unknown8bit_decodes_permissively _ (by decide)).trans rfl

/-- Counterexample to C2 as stated: a byte chunk with no charset at all
(charset `None` from `decode_header`) holding an invalid byte raises
`UnicodeDecodeError` instead of substituting a replacement character,
because the `charset is None` branch calls the strict `data.decode()`. -/
theorem header_none_charset_raises :
    getitemDecode [.bytes [0x63, 0x61, 0x66, 0xE9] none] = .error .unicodeDecodeError := rfl

/-- C3 (amended): for a header value of several decodable segments,
possibly in different character sets, reading the header returns the
decoded segments joined into one string with a single space between
consecutive segments (the loop ends with a join on a one-space
separator, not plain concatenation; see the counterexample). -/
theorem header_segments_joined_with_space (c1 c2 : HeaderChunk) (s1 s2 : List Char)
    (h1 : decodeChunk c1 = .ok s1) (h2 : decodeChunk c2 = .ok s2) :
    getitemDecode [c1, c2] = .ok (s1 ++ " ".data ++ s2) := by
  simp [getitemDecode, decodeChunks, h1, h2, List.intercalate]

/-- Witness for C3: two encoded segments in two different charsets
(UTF-8 and Latin-1) are both decoded and joined into one string. -/
theorem header_segments_joined_witness :
    decodeChunk (.bytes [0xC3, 0xA9] (some "utf-8".data)) = .ok ['é'] ∧
    decodeChunk (.bytes [0xE9] (some "latin-1".data)) = .ok ['é'] ∧
    getitemDecode [.bytes [0xC3, 0xA9] (some "utf-8".data),
      .bytes [0xE9] (some "latin-1".data)] = .ok ['é', ' ', 'é'] := by
  refine ⟨rfl, rfl, ?_⟩
  exact (header_segments_joined_with_space (.bytes [0xC3, 0xA9] (some "utf-8".data))
    (.bytes [0xE9] (some "latin-1".data)) ['é'] ['é'] rfl rfl).trans rfl

/-- Counterexample to C3 as stated: two segments decoding to `A` and `B`
under two different charsets produce the string `A B`, which is not the
concatenation `AB` of the decoded segments. -/
theorem header_join_not_concat :
    decodeChunk (.bytes [0x41] (some "utf-8".data)) = .ok "A".data ∧
    decodeChunk (.bytes [0x42] (some "iso-8859-1".data)) = .ok "B".data ∧
    getitemDecode [.bytes [0x41] (some "utf-8".data),
      .bytes [0x42] (some "iso-8859-1".data)] = .ok "A B".data ∧
    "A B".data ≠ "A".data ++ "B".data :=
  ⟨rfl, rfl, rfl, by decide⟩

/-- C4 (amended): for every query and reference date such that the
expanded query contains no further replacement token, re-expanding the
expansion is a no-op.  (Unrestricted idempotence fails; see the
counterexample, where an expansion manufactures a new token.) -/
theorem expand_idempotent_on_token_free (today : PyDate) (q : List Char)
    (h : noTokens (expandSearchMacros today q) = true) :
    expandSearchMacros today (expandSearchMacros today q) = expandSearchMacros today q :=
  expand_noTokens_id today _ h

/-- Witness for C4: the expansion of `LASTWEEK` is token-free and
re-expanding it changes nothing. -/
theorem expand_idempotent_witness :
    noTokens (expandSearchMacros ⟨2024, 1, 10⟩ "LASTWEEK".data) = true ∧
      expandSearchMacros ⟨2024, 1, 10⟩ (expandSearchMacros ⟨2024, 1, 10⟩ "LASTWEEK".data) =
        expandSearchMacros ⟨2024, 1, 10⟩ "LASTWEEK".data :=
  ⟨by decide, expand_idempotent_on_token_free ⟨2024, 1, 10⟩ "LASTWEEK".data (by decide)⟩

/-- Counterexample to C4 as stated: on 2024-01-10 the query
`PAST3DAYPAST7DAYS` expands to `PAST3DAYSINCE 03-Jan-2024` (the
`PAST7DAYS` replacement manufactures a `PAST3DAYS` token), so a second
expansion changes the string again and expansion is not idempotent on
every query. -/
theorem expand_not_idempotent_in_general :
    expandSearchMacros ⟨2024, 1, 10⟩ (expandSearchMacros ⟨2024, 1, 10⟩ "PAST3DAYPAST7DAYS".data)
      ≠ expandSearchMacros ⟨2024, 1, 10⟩ "PAST3DAYPAST7DAYS".data := by decide

/-- C5: for every valid reference date (year at least 3, where the
ordinal arithmetic of the source cannot underflow), expanding the query
`LASTWEEK` produces exactly `(SINCE d1 BEFORE d2)` where `d2` is the
Monday of the current week (weekday 0, at most 6 days before today) and
`d1` is the Monday one week earlier, both rendered in the DD-Mon-YYYY
RFC 3501 date format by `fmtDate`, the whole wrapped in parentheses. -/
theorem expand_lastweek_range (today : PyDate) (hv : today.Valid) (hy : 3 ≤ today.year) :
    expandSearchMacros today "LASTWEEK".data =
      "(SINCE ".data ++ fmtDate (ord2ymd (weekStartOrdOf today - 7)) ++ " BEFORE ".data
        ++ fmtDate (ord2ymd (weekStartOrdOf today)) ++ ")".data
    ∧ weekdayOfOrd (weekStartOrdOf today) = 0
    ∧ weekStartOrdOf today ≤ ymd2ord today
    ∧ ymd2ord today < weekStartOrdOf today + 7
    ∧ weekdayOfOrd (weekStartOrdOf today - 7) = 0
    ∧ weekStartOrdOf today - 7 + 7 = weekStartOrdOf today := by
  have hrd := ymd2ord_lower today hv hy
  refine ⟨?_, ?_, ?_, ?_, ?_, ?_⟩
  · rw [expand_lastweek_eval today]
    simp [imap_time_range, weekStartOrdOf]
  all_goals (unfold weekStartOrdOf weekdayOfOrd; omega)

/-- Witness for C5: on Wednesday 2024-01-10 the expansion is the range
from Monday 2024-01-01 to Monday 2024-01-08. -/
theorem expand_lastweek_range_witness :
    PyDate.Valid ⟨2024, 1, 10⟩ ∧
      expandSearchMacros ⟨2024, 1, 10⟩ "LASTWEEK".data =
        "(SINCE 01-Jan-2024 BEFORE 08-Jan-2024)".data :=
  ⟨by decide, ((expand_lastweek_range ⟨2024, 1, 10⟩ (by decide) (by decide)).1).trans (by decide)⟩

/-- C6: whenever the server answers the macro-expanded query with status
OK and one line holding the space-separated matching UIDs, `search`
sends exactly the expansion of the query as the SEARCH criteria and
returns those UIDs joined with commas. -/
theorem search_sends_expansion_and_joins_uids (today : PyDate)
    (server : List Char → List Char × List (List Char)) (query : List Char)
    (us : List (List Char)) (hu : ∀ u ∈ us, ' ' ∉ u)
    (hs : server (expandSearchMacros today query) =
      ("OK".data, [List.intercalate " ".data us])) :
    searchModel today server query = .ok (List.intercalate ",".data us) := by
  simp only [searchModel]
  rw [hs]
  unfold handle_response
  simp only [if_pos rfl]
  show Except.ok (pyReplace (List.intercalate " ".data us) " ".data ",".data) = _
  rw [show (" ".data : List Char) = [' '] from rfl, show (",".data : List Char) = [','] from rfl,
    pyReplace_single, intercalate_space_to_comma us hu]

/-- Witness for C6: a server returning `12 34 56` for the expanded query
makes `search` return `12,34,56`. -/
theorem search_sends_expansion_witness :
    (∀ u ∈ [['1', '2'], ['3', '4'], ['5', '6']], ' ' ∉ u) ∧
      searchModel ⟨2024, 1, 10⟩ (fun _ => ("OK".data, ["12 34 56".data])) "TODAY".data =
        .ok "12,34,56".data := by
  refine ⟨by decide, ?_⟩
  have h := search_sends_expansion_and_joins_uids ⟨2024, 1, 10⟩
    (fun _ => ("OK".data, ["12 34 56".data])) "TODAY".data
    [['1', '2'], ['3', '4'], ['5', '6']] (by decide) (by decide)
  exact h.trans rfl

/-- C7: the search-macro expansion is a pure rewrite: run on the same
query text and the same current date from any two facade states, it
produces the identical output string, and it leaves the facade state
unchanged (no side effect beyond the rewritten string). -/
theorem expand_search_macros_is_pure (s1 s2 : MailboxState) (today : PyDate) (q : List Char) :
    (expandMethod s1 today q).2 = (expandMethod s2 today q).2 ∧
      (expandMethod s1 today q).1 = s1 :=
  ⟨rfl, rfl⟩

/-- C8: for every facade state (connected or not) and every key, item
deletion raises `NotImplementedError` pointing at `discard()`, performs
no server call, and leaves the state unchanged. -/
theorem delitem_raises_not_implemented (m : MailboxState) (key : List Char) :
    (delitemModel m key).1 = .error (.notImplemented "Use discard() instead".data) ∧
      (delitemModel m key).2.1 = m ∧ (delitemModel m key).2.2 = [] :=
  ⟨rfl, rfl, rfl⟩

/-- C9: for every folder-list entry the parser accepts, `list_folders`
yields the three captured groups together with the display name, which
is the last delimiter-separated segment of the path
(`folder.split(delimiter)[-1]`). -/
theorem folder_entry_display_is_last_segment (s flags delim path : List Char)
    (h : parse_folder_data s = some (flags, delim, path)) :
    folderEntry s = some (flags, delim, path, (pySplit path delim).getLastD []) := by
  simp [folderEntry, h]

/-- Witness for C9: the entry from the claim parses to flags
`\HasNoChildren`, delimiter `/`, path `INBOX/Sent` and display name
`Sent`. -/
theorem folder_entry_display_witness :
    parse_folder_data "(\\HasNoChildren) \"/\" \"INBOX/Sent\"".data =
      some ("\\HasNoChildren".data, "/".data, "INBOX/Sent".data) ∧
    folderEntry "(\\HasNoChildren) \"/\" \"INBOX/Sent\"".data =
      some ("\\HasNoChildren".data, "/".data, "INBOX/Sent".data, "Sent".data) := by
  refine ⟨by decide, ?_⟩
  exact (folder_entry_display_is_last_segment _ "\\HasNoChildren".data "/".data
    "INBOX/Sent".data (by decide)).trans rfl

/-- C10: `select` assigns the new folder name to the facade before
issuing the server select, so the facade reports the new folder even
when the server call raises and the server-side selected folder is
unchanged; on success it returns the facade itself with
`current_folder` equal to the selected folder. -/
theorem select_nonatomic_on_error (srv : List Char → List Char → Except PyErr (List Char))
    (sf : List Char) (m : MailboxState) (folder : List Char) :
    current_folder (selectModel srv sf m folder).2.1 = folder ∧
    (∀ e, srv sf folder = .error e →
      (selectModel srv sf m folder).1 = .error e ∧
      (selectModel srv sf m folder).2.2 = sf) ∧
    (∀ sf2, srv sf folder = .ok sf2 →
      (selectModel srv sf m folder).1 = .ok (selectModel srv sf m folder).2.1 ∧
      (selectModel srv sf m folder).2.2 = sf2) := by
  refine ⟨?_, ?_, ?_⟩
  · cases h : srv sf folder <;> simp [selectModel, current_folder, h]
  · intro e he; simp [selectModel, he]
  · intro sf2 hok; simp [selectModel, hok]

/-- Witness for C10: with a server whose select raises `NO`, the facade
reports the new folder `Sent` while the server-side selection is still
`INBOX` and the error propagates. -/
theorem select_nonatomic_witness :
    current_folder (selectModel (fun _ _ => .error (.exception "NO".data)) "INBOX".data
      ⟨"h".data, "u".data, "pw".data, "INBOX".data, true⟩ "Sent".data).2.1 = "Sent".data ∧
    (selectModel (fun _ _ => .error (.exception "NO".data)) "INBOX".data
      ⟨"h".data, "u".data, "pw".data, "INBOX".data, true⟩ "Sent".data).1 =
      .error (.exception "NO".data) ∧
    (selectModel (fun _ _ => .error (.exception "NO".data)) "INBOX".data
      ⟨"h".data, "u".data, "pw".data, "INBOX".data, true⟩ "Sent".data).2.2 = "INBOX".data := by
  have h := select_nonatomic_on_error (fun _ _ => .error (.exception "NO".data)) "INBOX".data
    ⟨"h".data, "u".data, "pw".data, "INBOX".data, true⟩ "Sent".data
  exact ⟨h.1, (h.2.1 _ rfl).1, (h.2.1 _ rfl).2⟩

end ImapBox
